import Mathlib

/-!
Verification of the conflict-detection and resource-matching engine of the
Drone Operations Coordinator: shallow embedding of the Python source
(`src/main.py` `show_conflicts`/`check_conflicts`, `src/core/*.py`,
`src/modules/sheets_manager.py`) together with theorems settling the
claims of the specification about it.
-/

namespace DroneOps

/-! ### Text primitives

The external store keeps every field as plain text; the Python code splits
comma-separated tags with str.split at commas and trims with str.strip.
These are modelled character-by-character. -/

/-- Whitespace as the Python str.strip removes it (ASCII subset). -/
def isSpaceChar (c : Char) : Bool :=
  c = ' ' || c = '\t' || c = '\n' || c = '\r' || c = '\x0b' || c = '\x0c'

/-- Strip leading and trailing whitespace from a character list. -/
def stripChars (l : List Char) : List Char :=
  ((l.dropWhile isSpaceChar).reverse.dropWhile isSpaceChar).reverse

/-- Python `s.strip()`. -/
def pyStrip (s : String) : String := ⟨stripChars s.data⟩

/-- Split a character list at commas; models the Python split at commas. -/
def splitCommaAux (acc : List Char) : List Char → List (List Char)
  | [] => [acc.reverse]
  | c :: cs => if c = ',' then acc.reverse :: splitCommaAux [] cs
               else splitCommaAux (c :: acc) cs

/-- The Python split of a string at commas. -/
def pySplitComma (s : String) : List String :=
  (splitCommaAux [] s.data).map fun l => ⟨l⟩

/-- Digits to a number; `none` when a non-digit appears. Models the numeric
part of date parsing. -/
def digitsToNat : List Char → Option Nat → Option Nat
  | [], acc => acc
  | c :: cs, acc =>
    match acc with
    | none => none
    | some n => if c.isDigit then digitsToNat cs (some (n * 10 + (c.toNat - 48))) else none

/-- `pd.to_datetime` restricted to the ISO `YYYY-MM-DD` strings the spec fixes
for date fields (section 6): a valid date becomes the number
`y * 10000 + m * 100 + d`, whose `Nat` order is chronological order; anything
else fails to parse, which the conflict scan treats as a skipped mission. -/
def parseDate (s : String) : Option Nat :=
  match (pySplitComma ⟨s.data.map fun c => if c = '-' then ',' else c⟩) with
  | [y, m, d] =>
    if y.data ≠ [] ∧ m.data ≠ [] ∧ d.data ≠ [] then
      match digitsToNat y.data (some 0), digitsToNat m.data (some 0),
            digitsToNat d.data (some 0) with
      | some yn, some mn, some dn => some (yn * 10000 + mn * 100 + dn)
      | _, _, _ => none
    else none
  | _ => none

/-! ### Data model

Rows of the three sheets as the dataframe code in `src/main.py` reads them:
every field plain text (`src/modules/data_models.py` mirrors the columns). -/

/-- A row of the `missions` sheet. -/
structure MissionRow where
  mission_id : String
  client_name : String
  assigned_pilot : String
  start_date : String
  end_date : String
  required_skills : String
  deriving DecidableEq, Repr

/-- A row of the `pilot_roster` sheet. -/
structure PilotRow where
  pilot_id : String
  name : String
  skills : String
  status : String
  deriving DecidableEq, Repr

/-- A pilot object as `src/core/*.py` consumes it (`skills` already split into
tags; the matcher reads `pilot.location`). -/
structure Pilot where
  pilot_id : String
  name : String
  skills : List String
  status : String
  location : String
  deriving DecidableEq, Repr

/-- A drone object as `src/core/*.py` consumes it. -/
structure Drone where
  drone_id : String
  capabilities : List String
  status : String
  location : String
  current_assignment : Option String
  deriving DecidableEq, Repr

/-- Project requirements dict for the matcher
(`src/core/assignment_tracking.py`): the skills entry, defaulting to an
empty list, and the optional location entry. -/
structure Requirements where
  skills : List String
  location : Option String
  deriving DecidableEq, Repr

/-! ### Double-booking check (`src/main.py` lines 699-736, 506-534) -/

/-- One entry of `pilot_assignments[pilot]`: mission id with parsed dates
(the dict the Python builds has keys `mission_id`, `start`, `end`). -/
structure Assignment where
  mission_id : String
  start : Nat
  stop : Nat
  deriving DecidableEq, Repr

/-- A `DOUBLE_BOOKING` conflict record. -/
structure BookingConflict where
  pilot : String
  mission1 : String
  mission2 : String
  deriving DecidableEq, Repr

/-- The guard that admits a mission into either conflict check: the
assigned_pilot cell is truthy and its stripped text is none of the three
placeholder spellings None, empty and nan. -/
def missionContributes (ap : String) : Bool :=
  ap ≠ "" && !(pyStrip ap = "None" || pyStrip ap = "" || pyStrip ap = "nan")

/-- Append to an insertion-ordered dict of lists (Python dicts preserve
insertion order); the key is added even when the item is absent, mirroring
`pilot_assignments[pilot] = []` before the `try` block. -/
def dictAppend (p : String) (item : Option Assignment) :
    List (String × List Assignment) → List (String × List Assignment)
  | [] => [(p, item.toList)]
  | (q, l) :: rest =>
    if q = p then (q, l ++ item.toList) :: rest else (q, l) :: dictAppend p item rest

/-- One iteration of the mission loop building `pilot_assignments`: a mission
with a placeholder pilot is skipped; otherwise its dates are parsed and the
entry appended only when both parse (the `try`/`except: continue`). -/
def bookingStep (groups : List (String × List Assignment)) (m : MissionRow) :
    List (String × List Assignment) :=
  if missionContributes m.assigned_pilot then
    dictAppend m.assigned_pilot
      (match parseDate m.start_date, parseDate m.end_date with
       | some s, some e => some ⟨m.mission_id, s, e⟩
       | _, _ => none)
      groups
  else groups

/-- `pilot_assignments` after the whole mission loop. -/
def pilotAssignments (missions : List MissionRow) : List (String × List Assignment) :=
  missions.foldl bookingStep []

/-- Stable insertion by start date: an element goes in front of the first
strictly-later-or-equal start, keeping the original order of equal starts, as
the stable Python list.sort keyed by start does. -/
def insertByStart (a : Assignment) : List Assignment → List Assignment
  | [] => [a]
  | b :: bs => if a.start ≤ b.start then a :: b :: bs else b :: insertByStart a bs

/-- The sort of a pilot group: stable sort by start date. -/
def sortByStart (l : List Assignment) : List Assignment :=
  l.foldr insertByStart []

/-- The adjacent-pair walk over a sorted pilot group: a conflict is appended
for each neighbouring pair whose first end reaches the second start. -/
def adjacentConflicts (p : String) : List Assignment → List BookingConflict
  | a :: b :: rest =>
    (if b.start ≤ a.stop then [⟨p, a.mission_id, b.mission_id⟩] else []) ++
      adjacentConflicts p (b :: rest)
  | _ => []

/-- The full double-booking report of `show_conflicts` / the
`check_conflicts` tool: group missions by raw assigned-pilot string, sort each
group by start date, walk adjacent pairs. (The `len(assignments) > 1` guard is
subsumed: a singleton or empty group yields no adjacent pair.) -/
def doubleBookingConflicts (missions : List MissionRow) : List BookingConflict :=
  (pilotAssignments missions).flatMap fun pa => adjacentConflicts pa.1 (sortByStart pa.2)

/-! ### Skill-mismatch check (`src/main.py` lines 763-789) -/

/-- A skill-mismatch conflict record. -/
structure SkillConflict where
  mission : String
  pilot : String
  missing_skills : List String
  deriving DecidableEq, Repr

/-- The comprehension cleaning a tag field: split at commas, strip each
token, drop tokens that strip to nothing. -/
def cleanTokens (s : String) : List String :=
  ((pySplitComma s).map pyStrip).filter fun t => t ≠ ""

/-- The missing-skill computation for one mission against one roster row:
the cleaned required tokens absent from the cleaned pilot tokens. -/
def missingSkills (p : PilotRow) (m : MissionRow) : List String :=
  (cleanTokens m.required_skills).filter fun s => ¬ s ∈ cleanTokens p.skills

/-- The body of the skill-mismatch loop for one mission: placeholder pilots
are skipped, a pilot id with no roster row is skipped silently, otherwise the
missing tags are `required_skills` tokens absent from the tokens of the pilot and
a conflict is produced exactly when some tag is missing. -/
def missionSkillConflict (pilots : List PilotRow) (m : MissionRow) :
    Option SkillConflict :=
  if missionContributes m.assigned_pilot then
    match pilots.find? fun p => p.pilot_id = m.assigned_pilot with
    | some p =>
      if missingSkills p m ≠ [] then
        some ⟨m.mission_id, m.assigned_pilot, missingSkills p m⟩ else none
    | none => none
  else none

/-- The full skill-mismatch report of `show_conflicts`. -/
def skillMismatchConflicts (pilots : List PilotRow) (missions : List MissionRow) :
    List SkillConflict :=
  missions.filterMap (missionSkillConflict pilots)

/-! ### Matcher and queries (`src/core/assignment_tracking.py`,
`src/core/roster_management.py`, `src/core/drone_inventory.py`) -/

/-- Python truthiness of an optional string: absent and empty are falsy. -/
def truthyOpt : Option String → Bool
  | none => false
  | some s => s ≠ ""

/-- The location step of the matcher: with a truthy required location the
pilot location must equal it, otherwise any location passes. -/
def locationOk (req : Requirements) (p : Pilot) : Bool :=
  !truthyOpt req.location || p.location = req.location.getD ""

/-- `AssignmentTracker.match_pilot_to_project`: first-fit scan in store order
for an `Available` pilot holding every required skill and, when a location is
given, stationed there. -/
def match_pilot_to_project (pilots : List Pilot) (req : Requirements) :
    Option Pilot :=
  pilots.find? fun p =>
    p.status = "Available" && req.skills.all (fun s => p.skills.contains s) &&
      locationOk req p

/-- `RosterManager.get_available_pilots`: filter to `Available`, then by skill
tag membership when a skill is given, then by location equality when a
location is given. -/
def get_available_pilots (pilots : List Pilot) (skill location : Option String) :
    List Pilot :=
  let a1 := pilots.filter fun p => p.status = "Available"
  let a2 := if truthyOpt skill then
      a1.filter fun p => p.skills.contains (skill.getD "") else a1
  if truthyOpt location then
    a2.filter fun p => p.location = location.getD "" else a2

/-- `DroneInventory.get_available_drones`: same shape over the drone fleet
with capability tags. -/
def get_available_drones (drones : List Drone) (capability location : Option String) :
    List Drone :=
  let a1 := drones.filter fun d => d.status = "Available"
  let a2 := if truthyOpt capability then
      a1.filter fun d => d.capabilities.contains (capability.getD "") else a1
  if truthyOpt location then
    a2.filter fun d => d.location = location.getD "" else a2

/-! ### `ConflictDetector.detect_conflicts` (`src/core/conflict_detection.py`) -/

/-- A conflict record of `ConflictDetector`: a type tag and a message. -/
structure Conflict where
  type : String
  message : String
  deriving DecidableEq, Repr

/-- The f-string `f"Drone {drone.drone_id} is in maintenance but assigned to
{drone.current_assignment}"`. -/
def maintMessage (id assignment : String) : String :=
  "Drone " ++ id ++ " is in maintenance but assigned to " ++ assignment

/-- `ConflictDetector.detect_conflicts`: of its four commented checks only the
drone-maintenance scan appends anything (double-booking, skill and location
checks are placeholders that build no conflict), so the report is exactly the
drones whose status is `Maintenance` with a truthy current assignment. The
pilot list is read but contributes nothing. -/
def detect_conflicts (pilots : List Pilot) (drones : List Drone) : List Conflict :=
  let _ := pilots.filter fun p => p.status = "Assigned"
  drones.filterMap fun d =>
    match d.current_assignment with
    | some a => if d.status = "Maintenance" && a ≠ "" then
        some ⟨"drone_maintenance", maintMessage d.drone_id a⟩ else none
    | none => none

/-! ### Record store (`src/modules/sheets_manager.py`) -/

/-- A loaded sheet: the header row and the data rows, each row an association
of column name to cell text (the dataframe columns are the headers). -/
structure SheetData where
  headers : List String
  rows : List (List (String × String))
  deriving DecidableEq, Repr

/-- A cell of a row by column name. -/
def lookupField (row : List (String × String)) (f : String) : Option String :=
  (row.find? fun kv => kv.1 = f).map fun kv => kv.2

/-- Overwrite one cell of a row (`df.at[row, field] = value`). -/
def setField (f v : String) : List (String × String) → List (String × String)
  | [] => []
  | kv :: rest => if kv.1 = f then (f, v) :: rest else kv :: setField f v rest

/-- Replace the element at one position of a list. -/
def modifyRow (f : α → α) : Nat → List α → List α
  | _, [] => []
  | 0, x :: xs => f x :: xs
  | n + 1, x :: xs => x :: modifyRow f n xs

/-- `GoogleSheetsManager._guess_id_column`. -/
def guess_id_column (sheet_name : String) : String :=
  if sheet_name = "pilot_roster" then "pilot_id"
  else if sheet_name = "drone_fleet" then "drone_id"
  else if sheet_name = "missions" then "mission_id"
  else "id"

/-- One field write of the update loop: a field among the headers overwrites
the cell; an unknown field is skipped (the Python only logs a warning). -/
def applyUpdates (headers : List String) (updates : List (String × String))
    (row : List (String × String)) : List (String × String) :=
  updates.foldl (fun r fv => if fv.1 ∈ headers then setField fv.1 fv.2 r else r) row

/-- `GoogleSheetsManager.update_record` over the loaded cache: fails when the
sheet is not loaded, when the id column is not among the columns, or when no
row has an id cell equal to the record id; otherwise it writes each known field into
the first matching row, skips unknown fields, and reports success. -/
def update_record (sheets : List (String × SheetData)) (sheet_name record_id : String)
    (updates : List (String × String)) (id_column : Option String) :
    List (String × SheetData) × Bool :=
  match sheets.find? fun s => s.1 = sheet_name with
  | none => (sheets, false)
  | some (_, sheet) =>
    let idc := id_column.getD (guess_id_column sheet_name)
    if idc ∈ sheet.headers then
      match sheet.rows.findIdx? fun row => lookupField row idc = some record_id with
      | none => (sheets, false)
      | some i =>
        let sheet' : SheetData :=
          ⟨sheet.headers, modifyRow (applyUpdates sheet.headers updates) i sheet.rows⟩
        (sheets.map fun s => if s.1 = sheet_name then (s.1, sheet') else s, true)
    else (sheets, false)

/-! ### Conflict detection as a store operation (for the frame claim) -/

/-- The record store a conflict scan runs against: the three sheets
`show_conflicts` reads through `get_sheet_data` (which hands back a copy). -/
structure Store where
  pilot_roster : List PilotRow
  drone_fleet : List Drone
  missions : List MissionRow
  deriving DecidableEq, Repr

/-- `show_conflicts` / the `check_conflicts` tool as a store operation: it
reads the three sheets, computes both reports, and performs no
`update_record`/`add_record` call, so the store it leaves behind is the store
it was given. -/
def check_conflicts_run (s : Store) :
    Store × (List BookingConflict × List SkillConflict) :=
  let pilots := s.pilot_roster
  let missions := s.missions
  (s, (doubleBookingConflicts missions, skillMismatchConflicts pilots missions))

/-- `ConflictDetector.detect_conflicts` as a store operation over its pilot
and drone collections: reads both, writes neither. -/
def detect_conflicts_run (s : List Pilot × List Drone) :
    (List Pilot × List Drone) × List Conflict :=
  (s, detect_conflicts s.1 s.2)

end DroneOps

namespace DroneOps

example : parseDate "2024-01-05" = some 20240105 := by decide
example : parseDate "oops" = none := by decide
example : cleanTokens " Mapping , LiDAR ," = ["Mapping", "LiDAR"] := by decide
example : missionContributes "  None " = false := by decide
example : missionContributes "P1" = true := by decide
example :
    doubleBookingConflicts
      [⟨"M1", "c", "P1", "2024-01-01", "2024-01-05", ""⟩,
       ⟨"M2", "c", "P1", "2024-01-05", "2024-01-10", ""⟩] =
      [⟨"P1", "M1", "M2"⟩] := by decide
example :
    doubleBookingConflicts
      [⟨"M1", "c", "P1", "2024-01-01", "2024-01-04", ""⟩,
       ⟨"M2", "c", "P1", "2024-01-05", "2024-01-10", ""⟩] = [] := by decide

/-! ### Specification-side predicates

Written from the wording of the spec, to be compared with the embedded
code. -/

/-- Closed-interval overlap of two date ranges, as the spec words it: the
ranges share at least one day. -/
def overlaps (a b : Assignment) : Prop :=
  b.start ≤ a.stop ∧ a.start ≤ b.stop

/-- Eligibility of a pilot for requirements, as the spec words it: status
Available, skill set a superset of the required skills, and location equal to
the required location when one is given (an absent or empty location imposes
nothing, matching the truthiness test in the source). -/
def eligible (req : Requirements) (p : Pilot) : Prop :=
  p.status = "Available" ∧ (∀ s ∈ req.skills, s ∈ p.skills) ∧
    ∀ l, req.location = some l → l ≠ "" → p.location = l

/-- The neighbouring pairs of a list, in order. -/
def adjacentPairs : List α → List (α × α)
  | a :: b :: rest => (a, b) :: adjacentPairs (b :: rest)
  | _ => []

/-! ### Helper lemmas -/

/-- The Bool test the matcher runs decides the spec-side `eligible`. -/
lemma eligible_iff_test (req : Requirements) (p : Pilot) :
    (p.status = "Available" && req.skills.all (fun s => p.skills.contains s) &&
        locationOk req p) = true ↔ eligible req p := by
  unfold eligible locationOk truthyOpt
  cases hl : req.location with
  | none => simp
  | some l =>
    by_cases hempty : l = "" <;> simp_all [and_assoc]

lemma find?_eq_some_split (p : α → Bool) (l : List α) (x : α) :
    l.find? p = some x ↔
      p x = true ∧ ∃ l₁ l₂, l = l₁ ++ x :: l₂ ∧ ∀ y ∈ l₁, ¬ p y := by
  rw [List.find?_eq_some]
  simp

/-- claim C4: the matcher is first-fit: it returns the first pilot in store
order that is Available, holds every required skill, and sits at the required
location when one is given; it returns none exactly when no pilot in the
store is eligible. -/
theorem matcher_first_fit (pilots : List Pilot) (req : Requirements) :
    (∀ p, match_pilot_to_project pilots req = some p ↔
      eligible req p ∧ ∃ pre post, pilots = pre ++ p :: post ∧
        ∀ q ∈ pre, ¬ eligible req q) ∧
    (match_pilot_to_project pilots req = none ↔ ∀ p ∈ pilots, ¬ eligible req p) := by
  constructor
  · intro p
    rw [match_pilot_to_project, find?_eq_some_split]
    constructor
    · rintro ⟨hp, pre, post, rfl, hpre⟩
      exact ⟨(eligible_iff_test req p).mp hp, pre, post, rfl,
        fun q hq hel => hpre q hq ((eligible_iff_test req q).mpr hel)⟩
    · rintro ⟨hp, pre, post, rfl, hpre⟩
      exact ⟨(eligible_iff_test req p).mpr hp, pre, post, rfl,
        fun q hq ht => hpre q hq ((eligible_iff_test req q).mp ht)⟩
  · rw [match_pilot_to_project, List.find?_eq_none]
    exact ⟨fun h p hp hel => h p hp ((eligible_iff_test req p).mpr hel),
      fun h p hp ht => h p hp ((eligible_iff_test req p).mp ht)⟩

/-- claim C10: with no required skills and no required location the matcher
degenerates to a pure status filter: it returns the first pilot whose status
is Available (ignoring skills and location), and none exactly when no pilot
is Available. -/
theorem matcher_empty_requirements (pilots : List Pilot) :
    match_pilot_to_project pilots ⟨[], none⟩ =
      pilots.find? (fun p => p.status = "Available") ∧
    (∀ p, match_pilot_to_project pilots ⟨[], none⟩ = some p ↔
      p.status = "Available" ∧ ∃ pre post, pilots = pre ++ p :: post ∧
        ∀ q ∈ pre, q.status ≠ "Available") ∧
    (match_pilot_to_project pilots ⟨[], none⟩ = none ↔
      ∀ p ∈ pilots, p.status ≠ "Available") := by
  have hpred : ∀ p : Pilot,
      ((p.status = "Available" : Bool) && List.all [] (fun s => p.skills.contains s) &&
        locationOk ⟨[], none⟩ p) = (p.status = "Available" : Bool) := by
    intro p; simp [locationOk, truthyOpt]
  have heq : match_pilot_to_project pilots ⟨[], none⟩ =
      pilots.find? (fun p => p.status = "Available") := by
    unfold match_pilot_to_project
    congr 1
    funext p
    exact hpred p
  refine ⟨heq, fun p => ?_, ?_⟩
  · rw [heq, find?_eq_some_split]
    simp
  · rw [heq, List.find?_eq_none]
    simp

/-- claim C5: conflict detection is a pure, deterministic function of the
snapshot: both the dashboard check and `ConflictDetector.detect_conflicts`
leave every record of the store unchanged (neither path issues any
`update_record`/`add_record` call), and a second run on the store the first
run leaves behind produces an identical report. -/
theorem conflict_detection_pure (s : Store) (pd : List Pilot × List Drone) :
    (check_conflicts_run s).1 = s ∧
    (check_conflicts_run (check_conflicts_run s).1).2 = (check_conflicts_run s).2 ∧
    (detect_conflicts_run pd).1 = pd ∧
    (detect_conflicts_run (detect_conflicts_run pd).1).2 = (detect_conflicts_run pd).2 :=
  ⟨rfl, rfl, rfl, rfl⟩

/-- claim C9: `ConflictDetector.detect_conflicts` reports a drone_maintenance
conflict naming a drone exactly for the drones whose status is Maintenance
and whose current assignment is non-empty: every such drone yields its
conflict, and every conflict of the report stems from such a drone (so
drones not in that state produce none). -/
theorem drone_maintenance_conflicts (pilots : List Pilot) (drones : List Drone) :
    (∀ d a, d ∈ drones → d.status = "Maintenance" → d.current_assignment = some a →
      a ≠ "" →
      (⟨"drone_maintenance", maintMessage d.drone_id a⟩ : Conflict) ∈
        detect_conflicts pilots drones) ∧
    (∀ c, c ∈ detect_conflicts pilots drones →
      c.type = "drone_maintenance" ∧
      ∃ d a, d ∈ drones ∧ d.status = "Maintenance" ∧ d.current_assignment = some a ∧
        a ≠ "" ∧ c = ⟨"drone_maintenance", maintMessage d.drone_id a⟩) := by
  constructor
  · intro d a hd hst hca hne
    unfold detect_conflicts
    refine List.mem_filterMap.mpr ⟨d, hd, ?_⟩
    rw [hca]
    simp [hst, hne]
  · intro c hc
    unfold detect_conflicts at hc
    obtain ⟨d, hd, hsome⟩ := List.mem_filterMap.mp hc
    cases hca : d.current_assignment with
    | none => rw [hca] at hsome; exact absurd hsome (by simp)
    | some a =>
      rw [hca] at hsome
      by_cases hst : d.status = "Maintenance"
      · by_cases hne : a = ""
        · exact absurd hsome (by simp [hne])
        · have hc' : c = ⟨"drone_maintenance", maintMessage d.drone_id a⟩ := by
            simp only [hst, hne] at hsome
            simp at hsome
            exact hsome.2.symm
          exact ⟨by rw [hc'], d, a, hd, hst, hca, hne, hc'⟩
      · exact absurd hsome (by simp [hst])

lemma mem_get_available_pilots (pilots : List Pilot) (skill location : Option String)
    (p : Pilot) :
    p ∈ get_available_pilots pilots skill location ↔
      p ∈ pilots ∧ p.status = "Available" ∧
        (∀ s, skill = some s → s ≠ "" → s ∈ p.skills) ∧
        (∀ l, location = some l → l ≠ "" → p.location = l) := by
  unfold get_available_pilots
  rcases skill with _ | s
  · rcases location with _ | l
    · simp [truthyOpt, List.mem_filter, and_assoc]
    · by_cases hl : l = "" <;>
        (simp [truthyOpt, hl, List.mem_filter, and_assoc]; try tauto)
  · rcases location with _ | l
    · by_cases hs : s = "" <;>
        (simp [truthyOpt, hs, List.mem_filter, and_assoc]; try tauto)
    · by_cases hs : s = "" <;> by_cases hl : l = "" <;>
        (simp [truthyOpt, hs, hl, List.mem_filter, and_assoc]; try tauto)

lemma mem_get_available_drones (drones : List Drone) (capability location : Option String)
    (d : Drone) :
    d ∈ get_available_drones drones capability location ↔
      d ∈ drones ∧ d.status = "Available" ∧
        (∀ s, capability = some s → s ≠ "" → s ∈ d.capabilities) ∧
        (∀ l, location = some l → l ≠ "" → d.location = l) := by
  unfold get_available_drones
  rcases capability with _ | s
  · rcases location with _ | l
    · simp [truthyOpt, List.mem_filter, and_assoc]
    · by_cases hl : l = "" <;>
        (simp [truthyOpt, hl, List.mem_filter, and_assoc]; try tauto)
  · rcases location with _ | l
    · by_cases hs : s = "" <;>
        (simp [truthyOpt, hs, List.mem_filter, and_assoc]; try tauto)
    · by_cases hs : s = "" <;> by_cases hl : l = "" <;>
        (simp [truthyOpt, hs, hl, List.mem_filter, and_assoc]; try tauto)

lemma get_available_pilots_sublist (pilots : List Pilot)
    (skill location : Option String) :
    (get_available_pilots pilots skill location).Sublist pilots := by
  unfold get_available_pilots
  dsimp only
  split <;> split <;>
    first
    | exact ((List.filter_sublist _).trans (List.filter_sublist _)).trans
        (List.filter_sublist _)
    | exact (List.filter_sublist _).trans (List.filter_sublist _)
    | exact List.filter_sublist _

lemma get_available_drones_sublist (drones : List Drone)
    (capability location : Option String) :
    (get_available_drones drones capability location).Sublist drones := by
  unfold get_available_drones
  dsimp only
  split <;> split <;>
    first
    | exact ((List.filter_sublist _).trans (List.filter_sublist _)).trans
        (List.filter_sublist _)
    | exact (List.filter_sublist _).trans (List.filter_sublist _)
    | exact List.filter_sublist _

/-- claim C7: roster and inventory queries filter conjunctively: a record is
returned exactly when it is in the store, its status is Available, the
requested tag (when given) is verbatim among its tags, and its location
equals the requested one (when given); the result is a sublist of the store,
so store order is preserved, and an empty result is just a value (the
functions are total, no error path exists). -/
theorem queries_filter_conjunctive (pilots : List Pilot) (drones : List Drone)
    (skill capability location : Option String) :
    (∀ p, p ∈ get_available_pilots pilots skill location ↔
      p ∈ pilots ∧ p.status = "Available" ∧
        (∀ s, skill = some s → s ≠ "" → s ∈ p.skills) ∧
        (∀ l, location = some l → l ≠ "" → p.location = l)) ∧
    (get_available_pilots pilots skill location).Sublist pilots ∧
    (∀ d, d ∈ get_available_drones drones capability location ↔
      d ∈ drones ∧ d.status = "Available" ∧
        (∀ s, capability = some s → s ≠ "" → s ∈ d.capabilities) ∧
        (∀ l, location = some l → l ≠ "" → d.location = l)) ∧
    (get_available_drones drones capability location).Sublist drones :=
  ⟨fun p => mem_get_available_pilots pilots skill location p,
   get_available_pilots_sublist pilots skill location,
   fun d => mem_get_available_drones drones capability location d,
   get_available_drones_sublist drones capability location⟩

/-- claim C6: a mission whose assigned_pilot strips to the empty string, the
text None or the text nan is a placeholder: it contributes nothing to the
double-booking grouping and nothing to the skill check; and a
non-placeholder mission whose pilot id has no row in the roster yields no
skill conflict and no error (the lookup miss is silently skipped). -/
theorem placeholder_and_dangling_skipped :
    (∀ ap : String,
      (pyStrip ap = "" ∨ pyStrip ap = "None" ∨ pyStrip ap = "nan") →
      missionContributes ap = false) ∧
    (∀ m : MissionRow, missionContributes m.assigned_pilot = false →
      (∀ groups, bookingStep groups m = groups) ∧
      (∀ pilots, missionSkillConflict pilots m = none)) ∧
    (∀ (pilots : List PilotRow) (m : MissionRow),
      pilots.find? (fun q => q.pilot_id = m.assigned_pilot) = none →
      missionSkillConflict pilots m = none) := by
  refine ⟨?_, ?_, ?_⟩
  · intro ap h
    unfold missionContributes
    rcases h with h | h | h <;> simp [h]
  · intro m h
    exact ⟨fun groups => by simp [bookingStep, h],
      fun pilots => by simp [missionSkillConflict, h]⟩
  · intro pilots m hfind
    by_cases hmc : missionContributes m.assigned_pilot
    · simp [missionSkillConflict, hmc, hfind]
    · simp [missionSkillConflict, hmc]

/-- claim C3: for a mission that passes the placeholder guard and whose
assigned pilot id resolves to a roster row, a skill-mismatch conflict for the
mission is reported, carrying exactly the required tags missing from the
pilot tags (both sides cleaned as trimmed comma-separated tokens), if and
only if some required token is absent from the pilot tokens. -/
theorem skill_mismatch_reported_iff (pilots : List PilotRow)
    (missions : List MissionRow) (m : MissionRow) (p : PilotRow)
    (hm : m ∈ missions) (hc : missionContributes m.assigned_pilot = true)
    (hf : pilots.find? (fun q => q.pilot_id = m.assigned_pilot) = some p) :
    (∃ c, missionSkillConflict pilots m = some c ∧
        c ∈ skillMismatchConflicts pilots missions ∧
        c.mission = m.mission_id ∧ c.pilot = m.assigned_pilot ∧
        ∀ t, t ∈ c.missing_skills ↔
          t ∈ cleanTokens m.required_skills ∧ t ∉ cleanTokens p.skills) ↔
      ∃ t, t ∈ cleanTokens m.required_skills ∧ t ∉ cleanTokens p.skills := by
  by_cases hne : missingSkills p m = []
  · constructor
    · rintro ⟨c, hsome, -⟩
      rw [missionSkillConflict] at hsome
      simp [hc, hf, hne] at hsome
    · rintro ⟨t, ht, htn⟩
      have : t ∈ missingSkills p m := by
        simp [missingSkills, List.mem_filter, ht, htn]
      rw [hne] at this
      exact absurd this (List.not_mem_nil t)
  · constructor
    · intro _
      obtain ⟨t, ht⟩ := List.exists_mem_of_ne_nil _ hne
      have := List.mem_filter.mp ht
      exact ⟨t, this.1, by simpa using this.2⟩
    · intro _
      refine ⟨⟨m.mission_id, m.assigned_pilot, missingSkills p m⟩, ?_, ?_, rfl, rfl, ?_⟩
      · rw [missionSkillConflict]
        simp [hc, hf, hne]
      · refine List.mem_filterMap.mpr ⟨m, hm, ?_⟩
        rw [missionSkillConflict]
        simp [hc, hf, hne]
      · intro t
        simp [missingSkills, List.mem_filter]

/-- A one-sheet store used to exercise `update_record` on a concrete input. -/
def sampleSheets : List (String × SheetData) :=
  [("pilot_roster",
    ⟨["pilot_id", "status"], [[("pilot_id", "P1"), ("status", "Available")]]⟩)]

/-- claim C8, counterexample: updating an existing record through a field
name the schema does not know returns success, not failure: the unknown
field is skipped with only a logged warning and the sheet is left unchanged,
so the claim that an unrecognized field name is one of the error cases fails
on this input. -/
theorem update_record_unknown_field_succeeds :
    (update_record sampleSheets "pilot_roster" "P1" [("bogus", "x")] none).2 = true ∧
    ("bogus" ∈ ["pilot_id", "status"] → False) ∧
    (update_record sampleSheets "pilot_roster" "P1" [("bogus", "x")] none).1 =
      sampleSheets := by decide

/-- claim C8 (amended): `update_record` returns failure exactly when the
sheet is not loaded, the id column is missing from the columns, or no row
matches the identifier; the field names being updated never decide the flag
(an unrecognized field is skipped and the call still succeeds), and every
case returns a Boolean rather than escalating. -/
theorem update_record_failure_iff (sheets : List (String × SheetData))
    (sheet_name record_id : String) (updates : List (String × String))
    (id_column : Option String) :
    ((update_record sheets sheet_name record_id updates id_column).2 = false ↔
      sheets.find? (fun s => s.1 = sheet_name) = none ∨
        ∃ sh, sheets.find? (fun s => s.1 = sheet_name) = some sh ∧
          (id_column.getD (guess_id_column sheet_name) ∉ sh.2.headers ∨
            sh.2.rows.findIdx? (fun row =>
              lookupField row (id_column.getD (guess_id_column sheet_name)) =
                some record_id) = none)) ∧
    ∀ updates' : List (String × String),
      (update_record sheets sheet_name record_id updates id_column).2 =
        (update_record sheets sheet_name record_id updates' id_column).2 := by
  cases hfind : sheets.find? fun s => s.1 = sheet_name with
  | none =>
    constructor
    · rw [update_record, hfind]
      simp
    · intro updates'
      rw [update_record, hfind, update_record, hfind]
  | some sh =>
    obtain ⟨nm, sd⟩ := sh
    by_cases hh : id_column.getD (guess_id_column sheet_name) ∈ sd.headers
    · cases hidx : sd.rows.findIdx? (fun row =>
          lookupField row (id_column.getD (guess_id_column sheet_name)) =
            some record_id) with
      | none =>
        constructor
        · rw [update_record, hfind]
          dsimp only
          rw [if_pos hh, hidx]
          exact ⟨fun _ => Or.inr ⟨(nm, sd), rfl, Or.inr hidx⟩, fun _ => rfl⟩
        · intro updates'
          rw [update_record, hfind, update_record, hfind]
          dsimp only
          rw [if_pos hh, if_pos hh, hidx]
      | some i =>
        constructor
        · rw [update_record, hfind]
          dsimp only
          rw [if_pos hh, hidx]
          constructor
          · intro h
            exact absurd h (by simp)
          · rintro (h | ⟨sh', hsh', h | h⟩)
            · exact Option.noConfusion h
            · injection hsh' with h'
              subst h'
              exact absurd hh h
            · injection hsh' with h'
              subst h'
              exact Option.noConfusion (h.symm.trans hidx)
        · intro updates'
          rw [update_record, hfind, update_record, hfind]
          dsimp only
          rw [if_pos hh, if_pos hh, hidx]
    · constructor
      · rw [update_record, hfind]
        simp [hh]
      · intro updates'
        rw [update_record, hfind, update_record, hfind]
        simp [hh]

lemma adjacentConflicts_eq_filterMap (p : String) (L : List Assignment) :
    adjacentConflicts p L =
      (adjacentPairs L).filterMap fun ab =>
        if ab.2.start ≤ ab.1.stop then
          some ⟨p, ab.1.mission_id, ab.2.mission_id⟩ else none := by
  induction L with
  | nil => rfl
  | cons a rest ih =>
    cases rest with
    | nil => rfl
    | cons b rest' =>
      by_cases hab : b.start ≤ a.stop <;>
        simp [adjacentConflicts, adjacentPairs, List.filterMap_cons, hab, ih]

/-- claim C1 (amended): the double-booking report contains exactly, per
pilot group and in order, the adjacent pairs of the start-date-sorted
mission list whose first range ends on or after the second range starts
(so touching closed ranges are reported and disjoint ones are not);
non-adjacent pairs are never reported as a pair themselves, even when they
overlap. -/
theorem double_booking_reports_adjacent_overlaps (missions : List MissionRow) :
    doubleBookingConflicts missions =
      (pilotAssignments missions).flatMap fun pa =>
        (adjacentPairs (sortByStart pa.2)).filterMap fun ab =>
          if ab.2.start ≤ ab.1.stop then
            some ⟨pa.1, ab.1.mission_id, ab.2.mission_id⟩ else none := by
  unfold doubleBookingConflicts
  congr 1
  funext pa
  exact adjacentConflicts_eq_filterMap pa.1 (sortByStart pa.2)

/-- Three missions of one pilot on which the literal claim fails: M1 and M3
overlap as closed ranges but are separated by M2 in the start-sorted order. -/
def nonAdjacentMissions : List MissionRow :=
  [⟨"M1", "c", "P1", "2024-01-01", "2024-01-10", ""⟩,
   ⟨"M2", "c", "P1", "2024-01-02", "2024-01-03", ""⟩,
   ⟨"M3", "c", "P1", "2024-01-04", "2024-01-05", ""⟩]

/-- claim C1, counterexample: all dates of `nonAdjacentMissions` parse, the
pair (M1, M3) satisfies end-of-earlier at or after start-of-later
(20240110 at or after 20240104, so the claim says that pair is reported),
yet the full report is the single conflict pairing M1 with M2: the per-pair
iff of the claim holds only for adjacent pairs of the sorted list. -/
theorem double_booking_nonadjacent_pair_unreported :
    parseDate "2024-01-01" = some 20240101 ∧
    parseDate "2024-01-10" = some 20240110 ∧
    parseDate "2024-01-02" = some 20240102 ∧
    parseDate "2024-01-03" = some 20240103 ∧
    parseDate "2024-01-04" = some 20240104 ∧
    parseDate "2024-01-05" = some 20240105 ∧
    20240104 ≤ 20240110 ∧
    doubleBookingConflicts nonAdjacentMissions =
      [⟨"P1", "M1", "M2"⟩] := by decide

lemma insertByStart_perm (a : Assignment) (l : List Assignment) :
    (insertByStart a l).Perm (a :: l) := by
  induction l with
  | nil => exact List.Perm.refl _
  | cons b bs ih =>
    rw [insertByStart]
    by_cases h : a.start ≤ b.start
    · rw [if_pos h]
    · rw [if_neg h]
      exact (ih.cons b).trans (List.Perm.swap a b bs)

lemma sortByStart_perm (l : List Assignment) : (sortByStart l).Perm l := by
  induction l with
  | nil => exact List.Perm.refl _
  | cons a as ih =>
    exact (insertByStart_perm a (sortByStart as)).trans (ih.cons a)

lemma insertByStart_pairwise (a : Assignment) (l : List Assignment)
    (h : l.Pairwise fun x y => x.start ≤ y.start) :
    (insertByStart a l).Pairwise fun x y => x.start ≤ y.start := by
  induction l with
  | nil => simp [insertByStart]
  | cons b bs ih =>
    rw [insertByStart]
    have hb := List.pairwise_cons.mp h
    by_cases hab : a.start ≤ b.start
    · rw [if_pos hab]
      refine List.pairwise_cons.mpr ⟨?_, h⟩
      intro c hc
      rcases List.mem_cons.mp hc with rfl | hc'
      · exact hab
      · exact le_trans hab (hb.1 c hc')
    · rw [if_neg hab]
      refine List.pairwise_cons.mpr ⟨?_, ih hb.2⟩
      intro c hc
      rcases List.mem_cons.mp ((insertByStart_perm a bs).mem_iff.mp hc) with rfl | hc'
      · omega
      · exact hb.1 c hc'

lemma sortByStart_pairwise (l : List Assignment) :
    (sortByStart l).Pairwise fun x y => x.start ≤ y.start := by
  induction l with
  | nil => simp [sortByStart]
  | cons a as ih => exact insertByStart_pairwise a (sortByStart as) ih

lemma adjacentConflicts_pilot_eq (p : String) (L : List Assignment) :
    ∀ c ∈ adjacentConflicts p L, c.pilot = p := by
  induction L with
  | nil => simp [adjacentConflicts]
  | cons a rest ih =>
    cases rest with
    | nil => simp [adjacentConflicts]
    | cons b rest' =>
      intro c hc
      rw [adjacentConflicts] at hc
      rcases List.mem_append.mp hc with h | h
      · by_cases hcond : b.start ≤ a.stop
        · rw [if_pos hcond] at h
          rcases List.mem_singleton.mp h with rfl
          rfl
        · rw [if_neg hcond] at h
          exact absurd h (List.not_mem_nil c)
      · exact ih c h

lemma chain_of_adjacentConflicts_nil (p : String) (L : List Assignment)
    (h : adjacentConflicts p L = []) :
    L.Chain' fun x y => x.stop < y.start := by
  induction L with
  | nil => simp
  | cons a rest ih =>
    cases rest with
    | nil => simp
    | cons b rest' =>
      rw [adjacentConflicts] at h
      have hsplit := List.append_eq_nil.mp h
      rw [List.chain'_cons]
      constructor
      · by_cases hcond : b.start ≤ a.stop
        · rw [if_pos hcond] at hsplit
          exact absurd hsplit.1 (by simp)
        · omega
      · exact ih hsplit.2

lemma chain_and {R S : α → α → Prop} :
    ∀ {l : List α}, l.Chain' R → l.Chain' S →
      l.Chain' fun x y => R x y ∧ S x y := by
  intro l
  induction l with
  | nil => intro _ _; simp
  | cons a rest ih =>
    cases rest with
    | nil => intro _ _; simp
    | cons b rest' =>
      intro hR hS
      rw [List.chain'_cons] at hR hS ⊢
      exact ⟨⟨hR.1, hS.1⟩, ih hR.2 hS.2⟩

/-- claim C2: the adjacent-pair sweep is complete: whenever two distinct
missions of one pilot group (both with parsed dates, as the group only holds
such missions) overlap as closed ranges, the report contains at least one
double-booking conflict for that pilot. -/
theorem adjacent_sweep_complete (missions : List MissionRow) (p : String)
    (as : List Assignment) (hpa : (p, as) ∈ pilotAssignments missions)
    (a b : Assignment) (ha : a ∈ as) (hb : b ∈ as) (hab : a ≠ b)
    (hov : overlaps a b) :
    ∃ c ∈ doubleBookingConflicts missions, c.pilot = p := by
  obtain ⟨hov1, hov2⟩ := hov
  cases hconf : adjacentConflicts p (sortByStart as) with
  | cons c cs =>
    have hcmem : c ∈ adjacentConflicts p (sortByStart as) := by
      rw [hconf]; exact List.mem_cons_self c cs
    exact ⟨c, List.mem_flatMap.mpr ⟨(p, as), hpa, hcmem⟩,
      adjacentConflicts_pilot_eq p _ c hcmem⟩
  | nil =>
    exfalso
    have hchain := chain_of_adjacentConflicts_nil p _ hconf
    have hpairwise := sortByStart_pairwise as
    have hchain2 : (sortByStart as).Chain'
        fun x y => x.stop < y.start ∧ x.start ≤ y.start :=
      chain_and hchain hpairwise.chain'
    haveI : IsTrans Assignment
        (fun x y => x.stop < y.start ∧ x.start ≤ y.start) := by
      refine ⟨fun x y z h1 h2 => ⟨?_, ?_⟩⟩ <;> omega
    have hpw := List.chain'_iff_pairwise.mp hchain2
    have hsym : (sortByStart as).Pairwise
        fun x y => (x.stop < y.start ∧ x.start ≤ y.start) ∨
          (y.stop < x.start ∧ y.start ≤ x.start) :=
      hpw.imp fun h => Or.inl h
    have hforall := hsym.forall (by
      intro x y h
      rcases h with h | h
      · exact Or.inr h
      · exact Or.inl h)
    have ha' : a ∈ sortByStart as := (sortByStart_perm as).mem_iff.mpr ha
    have hb' : b ∈ sortByStart as := (sortByStart_perm as).mem_iff.mpr hb
    rcases hforall ha' hb' hab with h | h <;> omega

/-- Witness for claim C2 at a concrete snapshot: pilot P1 holds the
overlapping missions M1 and M2, so the report names a conflict for P1. -/
theorem adjacent_sweep_complete_witness :
    ∃ c ∈ doubleBookingConflicts
      [⟨"M1", "c", "P1", "2024-01-01", "2024-01-10", ""⟩,
       ⟨"M2", "c", "P1", "2024-01-02", "2024-01-03", ""⟩], c.pilot = "P1" :=
  adjacent_sweep_complete _ "P1"
    [⟨"M1", 20240101, 20240110⟩, ⟨"M2", 20240102, 20240103⟩]
    (by decide) ⟨"M1", 20240101, 20240110⟩ ⟨"M2", 20240102, 20240103⟩
    (by decide) (by decide) (by decide) ⟨by decide, by decide⟩

/-- Witness for claim C3 at a concrete snapshot: pilot P1 has only Mapping,
mission M001 requires Mapping and LiDAR, and the instantiated equivalence
holds with LiDAR the missing tag. -/
theorem skill_mismatch_reported_iff_witness :
    (∃ c, missionSkillConflict [⟨"P1", "Neha", "Mapping", "Available"⟩]
        ⟨"M001", "Acme", "P1", "2024-01-01", "2024-01-02", "Mapping, LiDAR"⟩ =
          some c ∧
        c ∈ skillMismatchConflicts [⟨"P1", "Neha", "Mapping", "Available"⟩]
          [⟨"M001", "Acme", "P1", "2024-01-01", "2024-01-02", "Mapping, LiDAR"⟩] ∧
        c.mission = "M001" ∧ c.pilot = "P1" ∧
        ∀ t, t ∈ c.missing_skills ↔
          t ∈ cleanTokens "Mapping, LiDAR" ∧ t ∉ cleanTokens "Mapping") ↔
      ∃ t, t ∈ cleanTokens "Mapping, LiDAR" ∧ t ∉ cleanTokens "Mapping" :=
  skill_mismatch_reported_iff
    [⟨"P1", "Neha", "Mapping", "Available"⟩]
    [⟨"M001", "Acme", "P1", "2024-01-01", "2024-01-02", "Mapping, LiDAR"⟩]
    ⟨"M001", "Acme", "P1", "2024-01-01", "2024-01-02", "Mapping, LiDAR"⟩
    ⟨"P1", "Neha", "Mapping", "Available"⟩
    (by decide) (by decide) (by decide)

end DroneOps
